import Mathlib

/-!
Shallow embedding of the agar game's state-replication core
(library data model, server feed event log, server login handling,
client reconciler), translated from the Rust sources
src/library/src/lib.rs, src/server/src/main.rs, src/client/src/main.rs.

Machine integers u32/u64/usize are modelled as Nat; the claims under
study only compare and carry these values (the one subtraction, in
FeedUpdates.despawn, is modelled explicitly below).  The f32 fields of
Agar, Transform and Sprite are never computed on by the embedded code
paths except copying and a doubling, so they are abstracted as Int
carriers; positions are Int triples.  Rust HashMaps are modelled as
association lists with insert-replaces-key semantics; all theorems
about map contents are stated through lookup and membership so that the
unspecified iteration order of a HashMap is never relied on.
-/

namespace AgarGame

/-- EntityId, a u32 in src/library/src/lib.rs. -/
abbrev EntityId := Nat

/-- FeedColor from src/library/src/lib.rs. -/
inductive FeedColor
  | red
  | green
  | blue
deriving DecidableEq, Repr

/-- Position carrier standing in for bevy Vec3 (f32 components are
never computed on by the embedded code paths, only copied). -/
structure Vec3 where
  x : Int
  y : Int
  z : Int
deriving DecidableEq, Repr

/-- FeedUpdateSpawn from src/library/src/lib.rs. -/
structure FeedUpdateSpawn where
  id : EntityId
  color : FeedColor
  translation : Vec3
deriving DecidableEq, Repr

/-- FeedUpdate from src/library/src/lib.rs. -/
inductive FeedUpdate
  | Spawn (s : FeedUpdateSpawn)
  | Despawn (id : EntityId)
deriving DecidableEq, Repr

/-- The id an event is about. -/
def FeedUpdate.eventId : FeedUpdate → EntityId
  | .Spawn s => s.id
  | .Despawn id => id

/-! ### Association-list model of std HashMap -/

/-- HashMap.get keyed by EntityId. -/
def alLookup {α : Type} (m : List (EntityId × α)) (k : EntityId) : Option α :=
  (m.find? (fun p => p.1 == k)).map Prod.snd

/-- HashMap.insert: replaces any entry with the same key. -/
def alInsert {α : Type} (m : List (EntityId × α)) (k : EntityId) (v : α) :
    List (EntityId × α) :=
  (k, v) :: m.filter (fun p => p.1 != k)

/-- HashMap.remove. -/
def alRemove {α : Type} (m : List (EntityId × α)) (k : EntityId) :
    List (EntityId × α) :=
  m.filter (fun p => p.1 != k)

/-- The keys of an association list, for the nodup invariant. -/
def alKeys {α : Type} (m : List (EntityId × α)) : List EntityId :=
  m.map Prod.fst

/-! ### Server feed event log (struct FeedUpdates, src/server/src/main.rs) -/

/-- FeedUpdates resource from src/server/src/main.rs: the ordered event
log, the derived live snapshot, and the total_feeds counter (a usize). -/
structure FeedUpdates where
  updates : List FeedUpdate
  snapshot : List (EntityId × FeedUpdateSpawn)
  total_feeds : Nat
deriving DecidableEq, Repr

/-- FeedUpdates::default(). -/
def FeedUpdates.empty : FeedUpdates :=
  { updates := [], snapshot := [], total_feeds := 0 }

/-- FeedUpdates::spawn: push Spawn, insert into snapshot, increment
total_feeds. -/
def FeedUpdates.spawn (fu : FeedUpdates) (u : FeedUpdateSpawn) : FeedUpdates :=
  { updates := fu.updates ++ [FeedUpdate.Spawn u]
    snapshot := alInsert fu.snapshot u.id u
    total_feeds := fu.total_feeds + 1 }

/-- FeedUpdates::despawn: push Despawn, remove from snapshot, decrement
total_feeds.  The decrement is a usize subtraction; when total_feeds is
0 it panics on underflow in a debug build (modelled as none) and wraps
in release; for total_feeds positive both agree on the value. -/
def FeedUpdates.despawn (fu : FeedUpdates) (id : EntityId) : Option FeedUpdates :=
  if fu.total_feeds = 0 then none
  else some
    { updates := fu.updates ++ [FeedUpdate.Despawn id]
      snapshot := alRemove fu.snapshot id
      total_feeds := fu.total_feeds - 1 }

/-- FeedUpdates::snapshot (the method): all live feeds as Spawn events. -/
def FeedUpdates.snapshotView (fu : FeedUpdates) : List FeedUpdate :=
  fu.snapshot.map (fun p => FeedUpdate.Spawn p.2)

/-- One step of the compaction loop body in FeedUpdates::updates: a
Spawn overwrites the map entry for its id; a Despawn removes the entry
when one is present and is inserted itself otherwise. -/
def feedStep (m : List (EntityId × FeedUpdate)) (u : FeedUpdate) :
    List (EntityId × FeedUpdate) :=
  match u with
  | .Spawn s => alInsert m s.id u
  | .Despawn id =>
    if (alLookup m id).isSome then alRemove m id else alInsert m id u

/-- FeedUpdates::updates(from): clamp the cursor to the log length,
fold the compaction step over the suffix, return the map values. -/
def FeedUpdates.updatesFrom (fu : FeedUpdates) (cursor : Nat) : List FeedUpdate :=
  ((fu.updates.drop (min cursor fu.updates.length)).foldl feedStep []).map Prod.snd

/-- The per-id state machine that feedStep implements on a single key:
the map entry for one id as a function of the events about that id. -/
def feedStepId (st : Option FeedUpdate) (u : FeedUpdate) : Option FeedUpdate :=
  match u with
  | .Spawn s => some (FeedUpdate.Spawn s)
  | .Despawn id => if st.isSome then none else some (FeedUpdate.Despawn id)

/-- A spawn or despawn operation on the feed event log, for reasoning
about sequences of FeedUpdates::spawn and FeedUpdates::despawn calls. -/
inductive LogOp
  | spawnOp (u : FeedUpdateSpawn)
  | despawnOp (id : EntityId)
deriving DecidableEq, Repr

/-- Run a sequence of log operations under the spec's preconditions:
every spawned id must be fresh for the snapshot and every despawned id
must be present in the snapshot; a violated precondition aborts.  The
operations themselves are the source functions FeedUpdates.spawn and
FeedUpdates.despawn. -/
def runChecked : FeedUpdates → List LogOp → Option FeedUpdates
  | fu, [] => some fu
  | fu, .spawnOp u :: rest =>
    if (alLookup fu.snapshot u.id).isSome then none
    else runChecked (fu.spawn u) rest
  | fu, .despawnOp id :: rest =>
    if (alLookup fu.snapshot id).isSome then
      (fu.despawn id).bind (fun fu1 => runChecked fu1 rest)
    else none

/-! ### Wire messages (src/library/src/lib.rs) -/

/-- Agar component; the f32 fields are abstract carriers here since the
embedded code paths only copy them. -/
structure Agar where
  size : Int
  velocity : Int × Int
  max_velocity : Int
deriving DecidableEq, Repr

/-- The client sprite whose size the reconciler overwrites from an
update (size times two on both axes). -/
structure Sprite where
  sizeX : Int
  sizeY : Int
deriving DecidableEq, Repr

/-- AgarUpdate from src/library/src/lib.rs. -/
structure AgarUpdate where
  agar : Agar
  translation : Vec3
deriving DecidableEq, Repr

/-- GameStateMessage from src/library/src/lib.rs; the agars HashMap is
an association list with unique keys. -/
structure GameStateMessage where
  frame : Nat
  agars : List (EntityId × AgarUpdate)
  feeds : Nat
deriving DecidableEq, Repr

/-- ClientMessage from src/library/src/lib.rs. -/
inductive ClientMessage
  | Login
  | LoginAck (id : EntityId)
  | InputMsg (v : Int × Int)
  | FeedRequest (cursor : Nat)
  | FeedResponse (events : List FeedUpdate)
deriving DecidableEq, Repr

/-! ### Client reconciler (handle_messages, src/client/src/main.rs) -/

/-- One locally mirrored agar entity: the Agar component, the Sprite,
the UpdateContext (id and frame) and the Transform translation. -/
structure MirrorEntity where
  id : EntityId
  agar : Agar
  sprite : Sprite
  frame : Nat
  translation : Vec3
deriving DecidableEq, Repr

/-- The update branch of the reconciler loop: set the stored frame to
the message frame, overwrite the sprite size with twice the agar size,
copy the agar state and the translation. -/
def applyAgarUpdate (e : MirrorEntity) (u : AgarUpdate) (frame : Nat) : MirrorEntity :=
  { e with
    frame := frame
    sprite := { sizeX := u.agar.size * 2, sizeY := u.agar.size * 2 }
    agar := u.agar
    translation := u.translation }

/-- The per-message loop over the mirrored agar query: each entity
looks itself up in (and consumes itself from) the message's agar map;
a present entity is updated only when its stored frame is strictly less
than the message frame (otherwise the stale message is skipped); an
absent entity is recorded for a deferred despawn command but stays in
the query for the rest of the pass.  Returns the mutated entity list,
the unconsumed part of the message map, and the despawn commands. -/
def updateMirror (frame : Nat) :
    List MirrorEntity → List (EntityId × AgarUpdate) →
    List MirrorEntity × List (EntityId × AgarUpdate) × List EntityId
  | [], m => ([], m, [])
  | e :: rest, m =>
    match alLookup m e.id with
    | some u =>
      let m1 := alRemove m e.id
      let e1 := if e.frame ≥ frame then e else applyAgarUpdate e u frame
      let r := updateMirror frame rest m1
      (e1 :: r.1, r.2.1, r.2.2)
    | none =>
      let r := updateMirror frame rest m
      (e :: r.1, r.2.1, e.id :: r.2.2)

/-- The mutable state of one reconciliation pass for one connection:
the mirrored entity list (the query, fixed as a set because spawn and
despawn commands are deferred), the deferred despawn commands, the
agars_to_spawn map, the FeedState counter and feed_request_num. -/
structure PassState where
  mirror : List MirrorEntity
  despawns : List EntityId
  toSpawn : List (EntityId × (Nat × AgarUpdate))
  feeds : Nat
  reqNum : Option Nat
deriving DecidableEq, Repr

/-- The pass state before any state message is processed. -/
def initPass (mirror : List MirrorEntity) (feeds : Nat) : PassState :=
  { mirror := mirror, despawns := [], toSpawn := [], feeds := feeds, reqNum := none }

/-- Processing of one GameStateMessage inside the recv loop: run the
mirror update, drain the unconsumed entries into agars_to_spawn
(HashMap insert, so last write wins per id), and run the feed-counter
comparison that arms feed_request_num at most once per pass. -/
def processMessage (st : PassState) (msg : GameStateMessage) : PassState :=
  let r := updateMirror msg.frame st.mirror msg.agars
  let ts := r.2.1.foldl (fun acc p => alInsert acc p.1 (msg.frame, p.2)) st.toSpawn
  if st.feeds < msg.feeds then
    { mirror := r.1
      despawns := st.despawns ++ r.2.2
      toSpawn := ts
      feeds := msg.feeds
      reqNum := if st.reqNum.isNone then some st.feeds else st.reqNum }
  else
    { mirror := r.1
      despawns := st.despawns ++ r.2.2
      toSpawn := ts
      feeds := st.feeds
      reqNum := st.reqNum }

/-- Materialisation of one buffered spawn after the message loop: a new
entity carrying the update's agar and translation and an UpdateContext
with the buffered frame.  The drawn circle's sprite comes from the
rendering primitive and is out of model. -/
def spawnedEntity (p : EntityId × (Nat × AgarUpdate)) : MirrorEntity :=
  { id := p.1
    agar := p.2.2.agar
    sprite := { sizeX := 0, sizeY := 0 }
    frame := p.2.1
    translation := p.2.2.translation }

/-- The mirror after the pass's deferred commands are applied: the
recorded despawns remove their entities, then the buffered spawns are
materialised. -/
def finishMirror (st : PassState) : List MirrorEntity :=
  st.mirror.filter (fun e => !(st.despawns.contains e.id)) ++ st.toSpawn.map spawnedEntity

/-- One reconciliation pass: drain the batch of state messages for one
connection. -/
def runPass (mirror : List MirrorEntity) (feeds : Nat)
    (msgs : List GameStateMessage) : PassState :=
  msgs.foldl processMessage (initPass mirror feeds)

/-- A sequence of reconciliation passes, each draining one batch of
state messages and then applying the deferred commands. -/
def runPasses (mirror : List MirrorEntity) (feeds : Nat) :
    List (List GameStateMessage) → List MirrorEntity × Nat
  | [] => (mirror, feeds)
  | msgs :: rest =>
    let st := runPass mirror feeds msgs
    runPasses (finishMirror st) st.feeds rest

/-! ### Server login handling (handle_messages, src/server/src/main.rs) -/

/-- A server-side agar entity as far as login handling is concerned:
the NetworkHandle component it was spawned with and the velocity the
Input branch mutates. -/
structure SrvAgar where
  handle : Nat
  velocity : Int × Int
deriving DecidableEq, Repr

/-- One ClientMessage handled by the server recv loop: Login
unconditionally spawns a fresh agar entity tagged with the connection
handle; Input overwrites the velocity of every agar whose handle
matches; the remaining messages do not change the agar set. -/
def serverHandleMsg (agars : List SrvAgar) (handle : Nat) :
    ClientMessage → List SrvAgar
  | .Login => agars ++ [{ handle := handle, velocity := (0, 0) }]
  | .InputMsg v =>
    agars.map (fun a => if a.handle == handle then { handle := a.handle, velocity := v } else a)
  | _ => agars

/-- The server recv loop for one connection draining a list of client
messages. -/
def serverHandleMsgs (agars : List SrvAgar) (handle : Nat)
    (msgs : List ClientMessage) : List SrvAgar :=
  msgs.foldl (fun ags m => serverHandleMsg ags handle m) agars

/-- Number of agar entities associated with one connection handle. -/
def countHandle (agars : List SrvAgar) (handle : Nat) : Nat :=
  (agars.filter (fun a => a.handle == handle)).length

/-! ### Concrete values used by counterexamples and witnesses -/

/-- A feed spawn event payload for id 1. -/
def feedS1 : FeedUpdateSpawn :=
  { id := 1, color := FeedColor.blue, translation := { x := 0, y := 0, z := 0 } }

/-- A feed spawn event payload for id 2. -/
def feedS2 : FeedUpdateSpawn :=
  { id := 2, color := FeedColor.blue, translation := { x := 0, y := 0, z := 0 } }

/-- A second feed spawn event payload for id 1 (different color). -/
def feedS1g : FeedUpdateSpawn :=
  { id := 1, color := FeedColor.green, translation := { x := 0, y := 0, z := 0 } }

/-- The log of the spec's Scenario 2. -/
def logScenario2 : FeedUpdates :=
  { updates := [FeedUpdate.Spawn feedS1, FeedUpdate.Spawn feedS2, FeedUpdate.Despawn 1]
    snapshot := [(2, feedS2)]
    total_feeds := 2 }

/-- A default agar payload used in concrete reconciliation runs. -/
def agar0 : Agar := { size := 15, velocity := (0, 0), max_velocity := 550 }

/-- A concrete agar update payload. -/
def upd0 : AgarUpdate := { agar := agar0, translation := { x := 0, y := 0, z := 0 } }

/-- A second concrete agar update payload with a different position. -/
def upd1 : AgarUpdate := { agar := agar0, translation := { x := 7, y := 7, z := 0 } }

/-- A mirrored entity with id 7 at frame 5, the spec's Scenario 3. -/
def ent7 : MirrorEntity :=
  { id := 7
    agar := agar0
    sprite := { sizeX := 30, sizeY := 30 }
    frame := 5
    translation := { x := 1, y := 2, z := 0 } }

/-! ### Association-list lemmas -/

theorem alLookup_alInsert {α : Type} (m : List (EntityId × α)) (k i : EntityId) (v : α) :
    alLookup (alInsert m k v) i = if k = i then some v else alLookup m i := by
  unfold alLookup alInsert
  by_cases h : k = i
  · subst h
    simp [List.find?]
  · simp only [if_neg h]
    simp only [List.find?]
    have hk : (k == i) = false := by simp [h]
    rw [hk]
    simp only [Bool.false_eq_true, if_false]
    induction m with
    | nil => simp
    | cons p rest ih =>
      by_cases hp : p.1 = k
      · have : (p.1 != k) = false := by simp [hp]
        simp only [List.filter, this]
        have hpi : (p.1 == i) = false := by
          simp only [beq_eq_false_iff_ne, ne_eq]
          intro hc; exact h (hp ▸ hc)
        rw [List.find?]
        rw [hpi]
        exact ih
      · have : (p.1 != k) = true := by simp [hp]
        simp only [List.filter, this]
        rw [List.find?, List.find?]
        cases hpi : (p.1 == i) with
        | true => rfl
        | false => exact ih

theorem alLookup_alRemove {α : Type} (m : List (EntityId × α)) (k i : EntityId) :
    alLookup (alRemove m k) i = if k = i then none else alLookup m i := by
  unfold alLookup alRemove
  by_cases h : k = i
  · subst h
    simp only [if_pos rfl]
    induction m with
    | nil => simp
    | cons p rest ih =>
      by_cases hp : p.1 = k
      · have : (p.1 != k) = false := by simp [hp]
        simp only [List.filter, this]
        exact ih
      · have h1 : (p.1 != k) = true := by simp [hp]
        simp only [List.filter, h1]
        rw [List.find?]
        have hpi : (p.1 == k) = false := by simp [hp]
        rw [hpi]
        exact ih
  · simp only [if_neg h]
    induction m with
    | nil => simp
    | cons p rest ih =>
      by_cases hp : p.1 = k
      · have h0 : (p.1 != k) = false := by simp [hp]
        simp only [List.filter, h0]
        rw [List.find?]
        have hpi : (p.1 == i) = false := by
          simp only [beq_eq_false_iff_ne, ne_eq]
          intro hc; exact h (hp ▸ hc)
        rw [hpi]
        exact ih
      · have h1 : (p.1 != k) = true := by simp [hp]
        simp only [List.filter, h1]
        rw [List.find?, List.find?]
        cases hpi : (p.1 == i) with
        | true => rfl
        | false => exact ih

theorem alKeys_alInsert_nodup {α : Type} (m : List (EntityId × α)) (k : EntityId)
    (v : α) (hm : (alKeys m).Nodup) : (alKeys (alInsert m k v)).Nodup := by
  unfold alKeys alInsert
  simp only [List.map_cons, List.nodup_cons]
  constructor
  · intro hmem
    rcases List.mem_map.mp hmem with ⟨p, hp, hpk⟩
    have := List.of_mem_filter hp
    simp only [bne_iff_ne, ne_eq, decide_eq_true_eq] at this
    exact this hpk
  · exact List.Nodup.sublist (List.Sublist.map Prod.fst (List.filter_sublist m)) hm

theorem alKeys_alRemove_nodup {α : Type} (m : List (EntityId × α)) (k : EntityId)
    (hm : (alKeys m).Nodup) : (alKeys (alRemove m k)).Nodup := by
  unfold alKeys alRemove
  exact List.Nodup.sublist (List.Sublist.map Prod.fst (List.filter_sublist m)) hm

/-- In a map with nodup keys, membership of an entry determines lookup. -/
theorem alLookup_of_mem_nodup {α : Type} (m : List (EntityId × α))
    (hm : (alKeys m).Nodup) (p : EntityId × α) (hp : p ∈ m) :
    alLookup m p.1 = some p.2 := by
  induction m with
  | nil => cases hp
  | cons q rest ih =>
    unfold alKeys at hm
    simp only [List.map_cons, List.nodup_cons] at hm
    rcases List.mem_cons.mp hp with h | h
    · subst h
      unfold alLookup
      rw [List.find?]
      simp
    · have hq1 : q.1 ≠ p.1 := by
        intro hc
        exact hm.1 (hc ▸ List.mem_map.mpr ⟨p, h, rfl⟩)
      unfold alLookup
      rw [List.find?]
      have : (q.1 == p.1) = false := by simp [hq1]
      rw [this]
      exact ih hm.2 h

/-! ### Compaction fold lemmas (FeedUpdates::updates) -/

theorem alLookup_feedStep (m : List (EntityId × FeedUpdate)) (u : FeedUpdate)
    (i : EntityId) :
    alLookup (feedStep m u) i =
      if u.eventId = i then feedStepId (alLookup m i) u else alLookup m i := by
  cases u with
  | Spawn s =>
    simp only [feedStep, FeedUpdate.eventId, feedStepId]
    rw [alLookup_alInsert]
  | Despawn id =>
    simp only [feedStep, FeedUpdate.eventId, feedStepId]
    by_cases h : (alLookup m id).isSome = true
    · rw [if_pos h, alLookup_alRemove]
      by_cases hii : id = i
      · subst hii
        rw [if_pos rfl, if_pos rfl, if_pos h]
      · rw [if_neg hii, if_neg hii]
    · rw [if_neg h, alLookup_alInsert]
      by_cases hii : id = i
      · subst hii
        rw [if_pos rfl, if_pos rfl, if_neg h]
      · rw [if_neg hii, if_neg hii]

theorem alLookup_foldl_feedStep (l : List FeedUpdate)
    (m : List (EntityId × FeedUpdate)) (i : EntityId) :
    alLookup (l.foldl feedStep m) i =
      (l.filter (fun u => u.eventId == i)).foldl feedStepId (alLookup m i) := by
  induction l generalizing m with
  | nil => rfl
  | cons u rest ih =>
    simp only [List.foldl, List.filter]
    by_cases h : u.eventId = i
    · have hb : (u.eventId == i) = true := by simp [h]
      rw [hb]
      simp only [List.foldl]
      rw [ih, alLookup_feedStep, if_pos h]
    · have hb : (u.eventId == i) = false := by simp [h]
      rw [hb]
      rw [ih, alLookup_feedStep, if_neg h]

/-- Every entry the compaction fold produces is keyed by the id of the
event stored in it. -/
theorem feedStep_key_inv (l : List FeedUpdate) (m : List (EntityId × FeedUpdate))
    (hm : ∀ p ∈ m, (Prod.snd p).eventId = p.1) :
    ∀ p ∈ l.foldl feedStep m, (Prod.snd p).eventId = p.1 := by
  induction l generalizing m with
  | nil => exact hm
  | cons u rest ih =>
    simp only [List.foldl]
    apply ih
    intro p hp
    cases u with
    | Spawn s =>
      simp only [feedStep, alInsert, List.mem_cons] at hp
      rcases hp with h | h
      · subst h; rfl
      · exact hm p (List.mem_of_mem_filter h)
    | Despawn id =>
      simp only [feedStep] at hp
      by_cases hs : (alLookup m id).isSome
      · rw [if_pos hs] at hp
        exact hm p (List.mem_of_mem_filter hp)
      · rw [if_neg hs] at hp
        simp only [alInsert, List.mem_cons] at hp
        rcases hp with h | h
        · subst h; rfl
        · exact hm p (List.mem_of_mem_filter h)

theorem feedStep_keys_nodup (m : List (EntityId × FeedUpdate)) (u : FeedUpdate)
    (hm : (alKeys m).Nodup) : (alKeys (feedStep m u)).Nodup := by
  cases u with
  | Spawn s => exact alKeys_alInsert_nodup m s.id _ hm
  | Despawn id =>
    simp only [feedStep]
    by_cases hs : (alLookup m id).isSome
    · rw [if_pos hs]; exact alKeys_alRemove_nodup m id hm
    · rw [if_neg hs]; exact alKeys_alInsert_nodup m id _ hm

theorem foldl_feedStep_keys_nodup (l : List FeedUpdate)
    (m : List (EntityId × FeedUpdate)) (hm : (alKeys m).Nodup) :
    (alKeys (l.foldl feedStep m)).Nodup := by
  induction l generalizing m with
  | nil => exact hm
  | cons u rest ih => exact ih (feedStep m u) (feedStep_keys_nodup m u hm)

/-- An event about id i is in the compacted result iff the per-id fold
over the window events about i ends in that event. -/
theorem mem_updatesFrom_iff (fu : FeedUpdates) (cursor : Nat) (e : FeedUpdate)
    (i : EntityId) (hi : e.eventId = i) :
    e ∈ fu.updatesFrom cursor ↔
      ((fu.updates.drop (min cursor fu.updates.length)).filter
          (fun u => u.eventId == i)).foldl feedStepId none = some e := by
  unfold FeedUpdates.updatesFrom
  have hkey := feedStep_key_inv (fu.updates.drop (min cursor fu.updates.length)) []
    (by intro p hp; cases hp)
  have hnodup := foldl_feedStep_keys_nodup
    (fu.updates.drop (min cursor fu.updates.length)) [] (by simp [alKeys])
  have hfold := alLookup_foldl_feedStep
    (fu.updates.drop (min cursor fu.updates.length)) [] i
  have hnil : alLookup ([] : List (EntityId × FeedUpdate)) i = none := rfl
  rw [hnil] at hfold
  constructor
  · intro he
    rcases List.mem_map.mp he with ⟨p, hp, hpe⟩
    have hpk : (Prod.snd p).eventId = p.1 := hkey p hp
    have hpi : p.1 = i := by rw [← hpk, hpe, hi]
    have hl := alLookup_of_mem_nodup _ hnodup p hp
    rw [hpi, hpe] at hl
    rw [← hfold]
    exact hl
  · intro hres
    rw [← hfold] at hres
    unfold alLookup at hres
    rcases Option.map_eq_some'.mp hres with ⟨q, hq, hqe⟩
    have hqin := List.mem_of_find?_eq_some hq
    apply List.mem_map.mpr
    exact ⟨q, hqin, hqe⟩

/-- C1.  Compaction of the feed event log for delivery from a cursor:
for each id, when the window events about that id are a Spawn later
cancelled by a Despawn of the same id, the incremental view contains no
event about that id at all; when the window events about an id are a
lone Despawn with no Spawn of that id in the window, the Despawn is
kept; in particular for the log Spawn 1, Spawn 2, Despawn 1 the
incremental view from cursor 0 is exactly the Spawn of id 2. -/
theorem c1_compaction_correct :
    (∀ (fu : FeedUpdates) (cursor : Nat) (i : EntityId) (s : FeedUpdateSpawn),
      (fu.updates.drop (min cursor fu.updates.length)).filter
          (fun u => u.eventId == i) = [FeedUpdate.Spawn s, FeedUpdate.Despawn i] →
      ∀ e ∈ fu.updatesFrom cursor, e.eventId ≠ i)
    ∧ (∀ (fu : FeedUpdates) (cursor : Nat) (i : EntityId),
      (fu.updates.drop (min cursor fu.updates.length)).filter
          (fun u => u.eventId == i) = [FeedUpdate.Despawn i] →
      FeedUpdate.Despawn i ∈ fu.updatesFrom cursor)
    ∧ logScenario2.updatesFrom 0 = [FeedUpdate.Spawn feedS2] := by
  refine ⟨?_, ?_, by decide⟩
  · intro fu cursor i s hwin e he hei
    have h := (mem_updatesFrom_iff fu cursor e i hei).mp he
    rw [hwin] at h
    simp [feedStepId] at h
  · intro fu cursor i hwin
    apply (mem_updatesFrom_iff fu cursor (FeedUpdate.Despawn i) i rfl).mpr
    rw [hwin]
    rfl

/-- Witness for C1 at concrete inputs: a window holding a cancelled
spawn of id 1 yields no event about id 1, and a window holding a lone
despawn of id 5 keeps it. -/
theorem c1_compaction_correct_witness :
    (∀ e ∈ (FeedUpdates.mk [FeedUpdate.Spawn feedS1, FeedUpdate.Despawn 1] [] 0).updatesFrom 0,
      e.eventId ≠ 1)
    ∧ FeedUpdate.Despawn 5 ∈ (FeedUpdates.mk [FeedUpdate.Despawn 5] [] 0).updatesFrom 0 :=
  ⟨c1_compaction_correct.1
      (FeedUpdates.mk [FeedUpdate.Spawn feedS1, FeedUpdate.Despawn 1] [] 0) 0 1 feedS1
      (by decide),
    c1_compaction_correct.2.1 (FeedUpdates.mk [FeedUpdate.Despawn 5] [] 0) 0 5 (by decide)⟩

/-! ### Further association-list lemmas for the log bookkeeping -/

theorem alLookup_eq_none_of_not_mem_keys {α : Type} (m : List (EntityId × α))
    (k : EntityId) (h : k ∉ alKeys m) : alLookup m k = none := by
  unfold alLookup
  have hfind : m.find? (fun p => p.1 == k) = none := by
    apply List.find?_eq_none.mpr
    intro p hp
    simp only [beq_eq_false_iff_ne, ne_eq, Bool.not_eq_true, beq_eq_false_iff_ne]
    intro hc
    exact h (hc ▸ List.mem_map.mpr ⟨p, hp, rfl⟩)
  rw [hfind]
  rfl

theorem alRemove_of_absent {α : Type} (m : List (EntityId × α)) (k : EntityId)
    (h : alLookup m k = none) : alRemove m k = m := by
  unfold alLookup at h
  have hfind : m.find? (fun p => p.1 == k) = none := by
    cases hf : m.find? (fun p => p.1 == k) with
    | none => rfl
    | some q => rw [hf] at h; simp at h
  have hall := List.find?_eq_none.mp hfind
  unfold alRemove
  apply List.filter_eq_self.mpr
  intro p hp
  have := hall p hp
  simpa using this

theorem alInsert_length_of_absent {α : Type} (m : List (EntityId × α)) (k : EntityId)
    (v : α) (h : alLookup m k = none) : (alInsert m k v).length = m.length + 1 := by
  have hfil := alRemove_of_absent m k h
  unfold alRemove at hfil
  unfold alInsert
  rw [hfil]
  simp

theorem alRemove_length_of_present {α : Type} (m : List (EntityId × α)) (k : EntityId)
    (hm : (alKeys m).Nodup) (h : (alLookup m k).isSome) :
    (alRemove m k).length + 1 = m.length := by
  induction m with
  | nil => simp [alLookup, List.find?] at h
  | cons q rest ih =>
    unfold alKeys at hm
    simp only [List.map_cons, List.nodup_cons] at hm
    by_cases hq : q.1 = k
    · have hq0 : (q.1 != k) = false := by simp [hq]
      unfold alRemove
      simp only [List.filter, hq0]
      have hrest : alLookup rest k = none := by
        apply alLookup_eq_none_of_not_mem_keys
        intro hc
        exact hm.1 (hq ▸ hc)
      have := alRemove_of_absent rest k hrest
      unfold alRemove at this
      rw [this]
      simp
    · have hq1 : (q.1 != k) = true := by simp [hq]
      have hq2 : (q.1 == k) = false := by simp [hq]
      unfold alRemove
      simp only [List.filter, hq1]
      unfold alLookup at h
      rw [List.find?, hq2] at h
      have := ih hm.2 h
      unfold alRemove at this
      simp only [List.length_cons]
      omega

/-! ### Claim C5: monotonicity of the log counters -/

/-- C5 counterexample.  The claim says no log operation ever makes
total_feeds smaller; but after one spawn the counter is 1 and the
matching despawn brings it back to 0. -/
theorem c5_total_feeds_counterexample :
    (FeedUpdates.empty.spawn feedS1).despawn 1 =
      some (FeedUpdates.mk [FeedUpdate.Spawn feedS1, FeedUpdate.Despawn 1] [] 0)
    ∧ 0 < (FeedUpdates.empty.spawn feedS1).total_feeds := by decide

/-- C5 amended.  The quantity the broadcast actually uses as the feed
cursor is the length of the updates vector, and that length is
non-decreasing under both spawn and despawn; total_feeds itself is the
live count, incremented by spawn and decremented by despawn. -/
theorem c5_log_length_monotone (fu : FeedUpdates) (u : FeedUpdateSpawn)
    (id : EntityId) :
    fu.updates.length ≤ (fu.spawn u).updates.length
    ∧ (fu.spawn u).total_feeds = fu.total_feeds + 1
    ∧ ∀ fu1, fu.despawn id = some fu1 →
        fu.updates.length ≤ fu1.updates.length
        ∧ fu1.total_feeds + 1 = fu.total_feeds := by
  refine ⟨by simp [FeedUpdates.spawn], rfl, ?_⟩
  intro fu1 h
  unfold FeedUpdates.despawn at h
  by_cases h0 : fu.total_feeds = 0
  · rw [if_pos h0] at h
    cases h
  · rw [if_neg h0] at h
    cases h
    constructor
    · simp
    · simp only []
      omega

/-- Witness for C5 amended at a concrete log with one live feed. -/
theorem c5_log_length_monotone_witness :
    (FeedUpdates.empty.spawn feedS1).updates.length ≤
      (FeedUpdates.mk [FeedUpdate.Spawn feedS1, FeedUpdate.Despawn 1] [] 0).updates.length
    ∧ (FeedUpdates.mk [FeedUpdate.Spawn feedS1, FeedUpdate.Despawn 1] [] 0).total_feeds + 1 =
      (FeedUpdates.empty.spawn feedS1).total_feeds :=
  (c5_log_length_monotone (FeedUpdates.empty.spawn feedS1) feedS1 1).2.2
    (FeedUpdates.mk [FeedUpdate.Spawn feedS1, FeedUpdate.Despawn 1] [] 0) (by decide)

/-! ### Claim C9: despawn of an id absent from the snapshot -/

/-- C9 counterexample.  The claim says despawning an id not in the
snapshot halts on a fatal assertion; but on a log with one live feed of
id 1, despawning id 2 returns a mutated log (the Despawn event is
appended, the snapshot is untouched, total_feeds is decremented) rather
than halting. -/
theorem c9_despawn_missing_id_counterexample :
    alLookup (FeedUpdates.mk [FeedUpdate.Spawn feedS1] [(1, feedS1)] 1).snapshot 2 = none
    ∧ (FeedUpdates.mk [FeedUpdate.Spawn feedS1] [(1, feedS1)] 1).despawn 2 =
      some (FeedUpdates.mk
        [FeedUpdate.Spawn feedS1, FeedUpdate.Despawn 2] [(1, feedS1)] 0) := by decide

/-- C9 amended.  FeedUpdates::despawn performs no snapshot membership
check: called on an id absent from the snapshot with a positive
total_feeds it continues normally, appending the Despawn event, leaving
the snapshot unchanged and decrementing total_feeds; the only halting
behavior is the usize underflow of the decrement when total_feeds is
already 0 (a debug-build panic, a silent wraparound in release). -/
theorem c9_despawn_no_assert :
    (∀ (fu : FeedUpdates) (id : EntityId),
      alLookup fu.snapshot id = none → 0 < fu.total_feeds →
      fu.despawn id = some
        { updates := fu.updates ++ [FeedUpdate.Despawn id]
          snapshot := fu.snapshot
          total_feeds := fu.total_feeds - 1 })
    ∧ ∀ (fu : FeedUpdates) (id : EntityId),
        fu.total_feeds = 0 → fu.despawn id = none := by
  constructor
  · intro fu id habs hpos
    unfold FeedUpdates.despawn
    rw [if_neg (by omega)]
    rw [alRemove_of_absent fu.snapshot id habs]
  · intro fu id h0
    unfold FeedUpdates.despawn
    rw [if_pos h0]

/-- Witness for C9 amended at the concrete log of the counterexample
and at the empty log. -/
theorem c9_despawn_no_assert_witness :
    (FeedUpdates.mk [FeedUpdate.Spawn feedS1] [(1, feedS1)] 1).despawn 2 =
      some
        { updates := [FeedUpdate.Spawn feedS1] ++ [FeedUpdate.Despawn 2]
          snapshot := [(1, feedS1)]
          total_feeds := 1 - 1 }
    ∧ FeedUpdates.empty.despawn 3 = none :=
  ⟨c9_despawn_no_assert.1 (FeedUpdates.mk [FeedUpdate.Spawn feedS1] [(1, feedS1)] 1) 2
      (by decide) (by decide),
    c9_despawn_no_assert.2 FeedUpdates.empty 3 (by decide)⟩

/-! ### Claim C10: total_feeds equals the live snapshot count -/

/-- C10 counterexample.  The claim allows unrestricted spawns; spawning
id 1 twice makes total_feeds 2 while the snapshot holds a single entry,
so the claimed equality fails. -/
theorem c10_unrestricted_spawn_counterexample :
    ((FeedUpdates.empty.spawn feedS1).spawn feedS1g).total_feeds = 2
    ∧ ((FeedUpdates.empty.spawn feedS1).spawn feedS1g).snapshot.length = 1 := by decide

/-- Invariant preservation for checked runs: freshness of spawned ids
and presence of despawned ids keep total_feeds equal to the snapshot
size and the snapshot keys nodup. -/
theorem runChecked_inv (ops : List LogOp) (fu fu1 : FeedUpdates)
    (hn : (alKeys fu.snapshot).Nodup) (hi : fu.total_feeds = fu.snapshot.length)
    (h : runChecked fu ops = some fu1) :
    fu1.total_feeds = fu1.snapshot.length := by
  induction ops generalizing fu with
  | nil =>
    unfold runChecked at h
    cases h
    exact hi
  | cons op rest ih =>
    cases op with
    | spawnOp u =>
      unfold runChecked at h
      by_cases hs : (alLookup fu.snapshot u.id).isSome
      · rw [if_pos hs] at h
        cases h
      · rw [if_neg hs] at h
        refine ih (fu.spawn u) ?_ ?_ h
        · exact alKeys_alInsert_nodup fu.snapshot u.id u hn
        · show fu.total_feeds + 1 = (alInsert fu.snapshot u.id u).length
          rw [alInsert_length_of_absent fu.snapshot u.id u
            (Option.not_isSome_iff_eq_none.mp hs), hi]
    | despawnOp id =>
      unfold runChecked at h
      by_cases hs : (alLookup fu.snapshot id).isSome
      · rw [if_pos hs] at h
        have hpos : 0 < fu.total_feeds := by
          rw [hi]
          cases hm : fu.snapshot with
          | nil =>
            rw [hm] at hs
            simp [alLookup, List.find?] at hs
          | cons a b => simp [hm]
        have hdes : fu.despawn id = some
            { updates := fu.updates ++ [FeedUpdate.Despawn id]
              snapshot := alRemove fu.snapshot id
              total_feeds := fu.total_feeds - 1 } := by
          unfold FeedUpdates.despawn
          rw [if_neg (by omega)]
        rw [hdes, Option.some_bind] at h
        refine ih _ ?_ ?_ h
        · exact alKeys_alRemove_nodup fu.snapshot id hn
        · show fu.total_feeds - 1 = (alRemove fu.snapshot id).length
          have := alRemove_length_of_present fu.snapshot id hn hs
          omega
      · rw [if_neg hs] at h
        cases h

/-- C10 amended.  After any checked sequence of log operations from the
empty log, where every spawned id is absent from the snapshot at its
spawn and every despawned id is present at its despawn, total_feeds
equals the number of snapshot entries, which is the live feed count the
refill loop in feed_spawn_system compares against 100. -/
theorem c10_total_feeds_live_count (ops : List LogOp) (fu : FeedUpdates)
    (h : runChecked FeedUpdates.empty ops = some fu) :
    fu.total_feeds = fu.snapshot.length :=
  runChecked_inv ops FeedUpdates.empty fu (by simp [FeedUpdates.empty, alKeys])
    rfl h

/-- Witness for C10 amended: two fresh spawns followed by a present
despawn leave one live feed and total_feeds 1. -/
theorem c10_total_feeds_live_count_witness :
    (FeedUpdates.mk
        [FeedUpdate.Spawn feedS1, FeedUpdate.Spawn feedS2, FeedUpdate.Despawn 1]
        [(2, feedS2)] 1).total_feeds =
      (FeedUpdates.mk
        [FeedUpdate.Spawn feedS1, FeedUpdate.Spawn feedS2, FeedUpdate.Despawn 1]
        [(2, feedS2)] 1).snapshot.length :=
  c10_total_feeds_live_count
    [LogOp.spawnOp feedS1, LogOp.spawnOp feedS2, LogOp.despawnOp 1] _ (by decide)

/-! ### Claim C6: one agar entity per connection handle -/

theorem countHandle_append (agars more : List SrvAgar) (handle : Nat) :
    countHandle (agars ++ more) handle = countHandle agars handle + countHandle more handle := by
  unfold countHandle
  rw [List.filter_append, List.length_append]

/-- C6 counterexample.  Two Login messages from the handle 5 connection
leave two agar entities mapped to handle 5. -/
theorem c6_double_login_counterexample :
    countHandle (serverHandleMsgs [] 5 [ClientMessage.Login, ClientMessage.Login]) 5 = 2 := by
  decide

/-- C6 amended.  The server Login branch spawns unconditionally: after
n Login messages from one connection, the number of agar entities
carrying that connection handle has grown by exactly n; no
deduplication per handle exists. -/
theorem c6_login_spawns_every_time (agars : List SrvAgar) (handle : Nat) (n : Nat) :
    countHandle (serverHandleMsgs agars handle (List.replicate n ClientMessage.Login)) handle =
      countHandle agars handle + n := by
  induction n generalizing agars with
  | zero => rfl
  | succ k ih =>
    rw [List.replicate_succ]
    show countHandle (serverHandleMsgs (serverHandleMsg agars handle ClientMessage.Login)
      handle (List.replicate k ClientMessage.Login)) handle = countHandle agars handle + (k + 1)
    rw [ih]
    show countHandle (agars ++ [{ handle := handle, velocity := (0, 0) }]) handle + k =
      countHandle agars handle + (k + 1)
    rw [countHandle_append]
    have : countHandle [{ handle := handle, velocity := (0, 0) }] handle = 1 := by
      simp [countHandle]
    omega

/-! ### Reconciler lemmas: the per-message mirror loop -/

/-- The mirror loop never adds or reorders entities: the resulting list
has the same ids at the same positions (spawn and despawn commands are
deferred past the loop). -/
theorem updateMirror_map_id (frame : Nat) (mir : List MirrorEntity)
    (m : List (EntityId × AgarUpdate)) :
    (updateMirror frame mir m).1.map MirrorEntity.id = mir.map MirrorEntity.id := by
  induction mir generalizing m with
  | nil => rfl
  | cons e rest ih =>
    simp only [updateMirror]
    cases alLookup m e.id with
    | some u =>
      simp only [List.map_cons, ih]
      by_cases hf : e.frame ≥ frame
      · rw [if_pos hf]
      · rw [if_neg hf]
        simp [applyAgarUpdate]
    | none => simp [ih]

/-- The unconsumed part of the message map is a sublist of the message
map (the loop only removes entries). -/
theorem updateMirror_rem_sublist (frame : Nat) (mir : List MirrorEntity)
    (m : List (EntityId × AgarUpdate)) :
    (updateMirror frame mir m).2.1.Sublist m := by
  induction mir generalizing m with
  | nil => exact List.Sublist.refl m
  | cons e rest ih =>
    simp only [updateMirror]
    cases alLookup m e.id with
    | some u =>
      exact List.Sublist.trans (ih (alRemove m e.id)) (List.filter_sublist m)
    | none => exact ih m

/-- Pointwise over the mirror: ids are preserved, stored frames never
decrease, and an entity whose stored frame is at least the message
frame is left untouched by the loop. -/
theorem updateMirror_pointwise (frame : Nat) (mir : List MirrorEntity)
    (m : List (EntityId × AgarUpdate)) :
    List.Forall₂ (fun e e1 => e.frame ≤ e1.frame ∧ (frame ≤ e.frame → e1 = e))
      mir (updateMirror frame mir m).1 := by
  induction mir generalizing m with
  | nil => exact List.Forall₂.nil
  | cons e rest ih =>
    cases hl : alLookup m e.id with
    | some u =>
      simp only [updateMirror, hl]
      by_cases hf : e.frame ≥ frame
      · rw [if_pos hf]
        exact List.Forall₂.cons ⟨le_refl _, fun _ => rfl⟩ (ih (alRemove m e.id))
      · rw [if_neg hf]
        refine List.Forall₂.cons ⟨?_, ?_⟩ (ih (alRemove m e.id))
        · simp only [applyAgarUpdate]
          omega
        · intro hc
          exact absurd hc hf
    | none =>
      simp only [updateMirror, hl]
      exact List.Forall₂.cons ⟨le_refl _, fun _ => rfl⟩ (ih m)

/-- Every recorded despawn id belongs to a mirrored entity. -/
theorem updateMirror_despawns_subset (frame : Nat) (mir : List MirrorEntity)
    (m : List (EntityId × AgarUpdate)) :
    ∀ i ∈ (updateMirror frame mir m).2.2, i ∈ mir.map MirrorEntity.id := by
  induction mir generalizing m with
  | nil => intro i hi; cases hi
  | cons e rest ih =>
    intro i hi
    simp only [updateMirror] at hi
    cases hl : alLookup m e.id with
    | some u =>
      rw [hl] at hi
      exact List.mem_cons_of_mem _ (ih (alRemove m e.id) i hi)
    | none =>
      rw [hl] at hi
      rcases List.mem_cons.mp hi with h | h
      · subst h; exact List.mem_cons_self _ _
      · exact List.mem_cons_of_mem _ (ih m i h)

/-- With distinct mirror ids, a mirrored entity is recorded for despawn
exactly when its id is absent from the message map. -/
theorem updateMirror_despawn_mem (frame : Nat) (mir : List MirrorEntity)
    (m : List (EntityId × AgarUpdate)) (hnd : (mir.map MirrorEntity.id).Nodup)
    (e : MirrorEntity) (he : e ∈ mir) :
    e.id ∈ (updateMirror frame mir m).2.2 ↔ alLookup m e.id = none := by
  induction mir generalizing m with
  | nil => cases he
  | cons f rest ih =>
    simp only [List.map_cons, List.nodup_cons] at hnd
    rcases List.mem_cons.mp he with hef | hef
    · subst hef
      cases hl : alLookup m e.id with
      | some u =>
        simp only [updateMirror, hl]
        constructor
        · intro hmem
          have := updateMirror_despawns_subset frame rest (alRemove m e.id) e.id hmem
          exact absurd this hnd.1
        · intro hc; cases hc
      | none =>
        simp only [updateMirror, hl]
        constructor
        · intro _; trivial
        · intro _; exact List.mem_cons_self _ _
    · have hne : f.id ≠ e.id := by
        intro hc
        exact hnd.1 (hc ▸ List.mem_map.mpr ⟨e, hef, rfl⟩)
      cases hl : alLookup m f.id with
      | some u =>
        simp only [updateMirror, hl]
        rw [ih (alRemove m f.id) hnd.2 hef]
        rw [alLookup_alRemove]
        rw [if_neg hne]
      | none =>
        simp only [updateMirror, hl, List.mem_cons]
        rw [ih m hnd.2 hef]
        constructor
        · intro h
          rcases h with h | h
          · exact absurd h.symm hne
          · exact h
        · intro h; right; exact h

/-- With distinct mirror ids, the branch taken for a mirrored entity is
decided by its lookup in the original message map: a present entity
stays untouched when the message is stale and is overwritten by the
update otherwise, and an absent entity stays untouched. -/
theorem updateMirror_mem_cases (frame : Nat) (mir : List MirrorEntity)
    (m : List (EntityId × AgarUpdate)) (hnd : (mir.map MirrorEntity.id).Nodup)
    (e : MirrorEntity) (he : e ∈ mir) :
    (∀ u, alLookup m e.id = some u → frame ≤ e.frame → e ∈ (updateMirror frame mir m).1)
    ∧ (∀ u, alLookup m e.id = some u → e.frame < frame →
        applyAgarUpdate e u frame ∈ (updateMirror frame mir m).1)
    ∧ (alLookup m e.id = none → e ∈ (updateMirror frame mir m).1) := by
  induction mir generalizing m with
  | nil => cases he
  | cons f rest ih =>
    simp only [List.map_cons, List.nodup_cons] at hnd
    rcases List.mem_cons.mp he with hef | hef
    · subst hef
      refine ⟨?_, ?_, ?_⟩
      · intro u hu hst
        simp only [updateMirror, hu]
        rw [if_pos hst]
        exact List.mem_cons_self _ _
      · intro u hu hfr
        simp only [updateMirror, hu]
        rw [if_neg (by omega)]
        exact List.mem_cons_self _ _
      · intro hu
        simp only [updateMirror, hu]
        exact List.mem_cons_self _ _
    · have hne : f.id ≠ e.id := by
        intro hc
        exact hnd.1 (hc ▸ List.mem_map.mpr ⟨e, hef, rfl⟩)
      refine ⟨?_, ?_, ?_⟩
      · intro u hu hst
        simp only [updateMirror]
        cases hl : alLookup m f.id with
        | some v =>
          apply List.mem_cons_of_mem
          refine (ih (alRemove m f.id) hnd.2 hef).1 u ?_ hst
          rw [alLookup_alRemove, if_neg hne]
          exact hu
        | none =>
          apply List.mem_cons_of_mem
          exact (ih m hnd.2 hef).1 u hu hst
      · intro u hu hfr
        simp only [updateMirror]
        cases hl : alLookup m f.id with
        | some v =>
          apply List.mem_cons_of_mem
          refine (ih (alRemove m f.id) hnd.2 hef).2.1 u ?_ hfr
          rw [alLookup_alRemove, if_neg hne]
          exact hu
        | none =>
          apply List.mem_cons_of_mem
          exact (ih m hnd.2 hef).2.1 u hu hfr
      · intro hu
        simp only [updateMirror]
        cases hl : alLookup m f.id with
        | some v =>
          apply List.mem_cons_of_mem
          refine (ih (alRemove m f.id) hnd.2 hef).2.2 ?_
          rw [alLookup_alRemove, if_neg hne]
          exact hu
        | none =>
          apply List.mem_cons_of_mem
          exact (ih m hnd.2 hef).2.2 hu

/-- With distinct mirror ids, the unconsumed part of the message map
has no entry for any mirrored id and keeps the original entries for all
other ids. -/
theorem updateMirror_rem_lookup (frame : Nat) (mir : List MirrorEntity)
    (m : List (EntityId × AgarUpdate)) (hnd : (mir.map MirrorEntity.id).Nodup)
    (i : EntityId) :
    alLookup (updateMirror frame mir m).2.1 i =
      if i ∈ mir.map MirrorEntity.id then none else alLookup m i := by
  induction mir generalizing m with
  | nil => simp [updateMirror]
  | cons e rest ih =>
    simp only [List.map_cons, List.nodup_cons] at hnd
    cases hl : alLookup m e.id with
    | some u =>
      simp only [updateMirror, hl, List.map_cons]
      rw [ih (alRemove m e.id) hnd.2]
      by_cases hir : i ∈ rest.map MirrorEntity.id
      · rw [if_pos hir, if_pos (List.mem_cons_of_mem _ hir)]
      · rw [if_neg hir]
        rw [alLookup_alRemove]
        by_cases hie : e.id = i
        · subst hie
          rw [if_pos rfl, if_pos (List.mem_cons_self _ _)]
        · have hni : i ∉ (e.id :: rest.map MirrorEntity.id) := by
            intro hc
            rcases List.mem_cons.mp hc with hc | hc
            · exact hie hc.symm
            · exact hir hc
          rw [if_neg hie, if_neg hni]
    | none =>
      simp only [updateMirror, hl, List.map_cons]
      rw [ih m hnd.2]
      by_cases hir : i ∈ rest.map MirrorEntity.id
      · rw [if_pos hir, if_pos (List.mem_cons_of_mem _ hir)]
      · rw [if_neg hir]
        by_cases hie : e.id = i
        · subst hie
          rw [if_pos (List.mem_cons_self _ _)]
          exact hl
        · have hni : i ∉ (e.id :: rest.map MirrorEntity.id) := by
            intro hc
            rcases List.mem_cons.mp hc with hc | hc
            · exact hie hc.symm
            · exact hir hc
          rw [if_neg hni]

/-! ### Reconciler lemmas: one message inside the pass -/

theorem alLookup_cons {α : Type} (p : EntityId × α) (rest : List (EntityId × α))
    (i : EntityId) :
    alLookup (p :: rest) i = if p.1 = i then some p.2 else alLookup rest i := by
  unfold alLookup
  rw [List.find?]
  by_cases h : p.1 = i
  · have hb : (p.1 == i) = true := by simp [h]
    rw [hb, if_pos h]
    rfl
  · have hb : (p.1 == i) = false := by simp [h]
    rw [hb, if_neg h]

theorem alLookup_isSome_iff_mem_keys {α : Type} (m : List (EntityId × α))
    (k : EntityId) : (alLookup m k).isSome ↔ k ∈ alKeys m := by
  unfold alLookup alKeys
  rw [Option.isSome_map']
  rw [List.find?_isSome]
  constructor
  · rintro ⟨p, hp, hpk⟩
    exact List.mem_map.mpr ⟨p, hp, by simpa using hpk⟩
  · intro h
    rcases List.mem_map.mp h with ⟨p, hp, hpk⟩
    exact ⟨p, hp, by simp [hpk]⟩

theorem processMessage_mirror (st : PassState) (msg : GameStateMessage) :
    (processMessage st msg).mirror = (updateMirror msg.frame st.mirror msg.agars).1 := by
  simp only [processMessage]
  split <;> rfl

theorem processMessage_despawns (st : PassState) (msg : GameStateMessage) :
    (processMessage st msg).despawns =
      st.despawns ++ (updateMirror msg.frame st.mirror msg.agars).2.2 := by
  simp only [processMessage]
  split <;> rfl

theorem processMessage_toSpawn (st : PassState) (msg : GameStateMessage) :
    (processMessage st msg).toSpawn =
      (updateMirror msg.frame st.mirror msg.agars).2.1.foldl
        (fun acc p => alInsert acc p.1 (msg.frame, p.2)) st.toSpawn := by
  simp only [processMessage]
  split <;> rfl

theorem processMessage_feeds (st : PassState) (msg : GameStateMessage) :
    (processMessage st msg).feeds = if st.feeds < msg.feeds then msg.feeds else st.feeds := by
  simp only [processMessage]
  split <;> rfl

theorem processMessage_reqNum (st : PassState) (msg : GameStateMessage) :
    (processMessage st msg).reqNum =
      if st.feeds < msg.feeds then
        (if st.reqNum.isNone then some st.feeds else st.reqNum)
      else st.reqNum := by
  simp only [processMessage]
  split <;> rfl

theorem foldl_alInsert_lookup (l : List (EntityId × AgarUpdate))
    (ts0 : List (EntityId × (Nat × AgarUpdate))) (F : Nat) (i : EntityId)
    (hnd : (alKeys l).Nodup) :
    alLookup (l.foldl (fun acc p => alInsert acc p.1 (F, p.2)) ts0) i =
      match alLookup l i with
      | some u => some (F, u)
      | none => alLookup ts0 i := by
  induction l generalizing ts0 with
  | nil => rfl
  | cons p rest ih =>
    simp only [alKeys, List.map_cons, List.nodup_cons] at hnd
    rw [List.foldl_cons]
    rw [ih (alInsert ts0 p.1 (F, p.2)) hnd.2]
    rw [alLookup_cons]
    by_cases hpi : p.1 = i
    · rw [if_pos hpi]
      have hrest : alLookup rest i = none := by
        apply alLookup_eq_none_of_not_mem_keys
        intro hc
        exact hnd.1 (hpi ▸ hc)
      rw [hrest]
      show alLookup (alInsert ts0 p.1 (F, p.2)) i = some (F, p.2)
      rw [alLookup_alInsert, if_pos hpi]
    · rw [if_neg hpi]
      cases hrest : alLookup rest i with
      | some u => rfl
      | none =>
        show alLookup (alInsert ts0 p.1 (F, p.2)) i = alLookup ts0 i
        rw [alLookup_alInsert, if_neg hpi]

theorem foldl_alInsert_lookup_none (l : List (EntityId × AgarUpdate))
    (ts0 : List (EntityId × (Nat × AgarUpdate))) (F : Nat) (i : EntityId)
    (h : ∀ p ∈ l, p.1 ≠ i) :
    alLookup (l.foldl (fun acc p => alInsert acc p.1 (F, p.2)) ts0) i =
      alLookup ts0 i := by
  induction l generalizing ts0 with
  | nil => rfl
  | cons p rest ih =>
    rw [List.foldl_cons]
    rw [ih (alInsert ts0 p.1 (F, p.2)) (fun q hq => h q (List.mem_cons_of_mem _ hq))]
    rw [alLookup_alInsert, if_neg (h p (List.mem_cons_self _ _))]

theorem foldl_alInsert_keys_nodup (l : List (EntityId × AgarUpdate))
    (ts0 : List (EntityId × (Nat × AgarUpdate))) (F : Nat)
    (hnd : (alKeys ts0).Nodup) :
    (alKeys (l.foldl (fun acc p => alInsert acc p.1 (F, p.2)) ts0)).Nodup := by
  induction l generalizing ts0 with
  | nil => exact hnd
  | cons p rest ih =>
    rw [List.foldl_cons]
    exact ih (alInsert ts0 p.1 (F, p.2)) (alKeys_alInsert_nodup ts0 p.1 _ hnd)

theorem alLookup_eq_none_forall_ne {α : Type} (m : List (EntityId × α)) (i : EntityId)
    (h : alLookup m i = none) : ∀ p ∈ m, p.1 ≠ i := by
  intro p hp hc
  unfold alLookup at h
  have hfind : m.find? (fun q => q.1 == i) = none := by
    cases hf : m.find? (fun q => q.1 == i) with
    | none => rfl
    | some q => rw [hf] at h; simp at h
  have := List.find?_eq_none.mp hfind p hp
  simp [hc] at this

/-! ### Reconciler lemmas: the whole pass -/

theorem foldl_processMessage_map_id (msgs : List GameStateMessage) (st : PassState) :
    ((msgs.foldl processMessage st).mirror).map MirrorEntity.id =
      st.mirror.map MirrorEntity.id := by
  induction msgs generalizing st with
  | nil => rfl
  | cons msg rest ih =>
    rw [List.foldl_cons, ih, processMessage_mirror, updateMirror_map_id]

theorem foldl_processMessage_toSpawn_nodup (msgs : List GameStateMessage)
    (st : PassState) (hnd : (alKeys st.toSpawn).Nodup) :
    (alKeys ((msgs.foldl processMessage st).toSpawn)).Nodup := by
  induction msgs generalizing st with
  | nil => exact hnd
  | cons msg rest ih =>
    rw [List.foldl_cons]
    apply ih
    rw [processMessage_toSpawn]
    exact foldl_alInsert_keys_nodup _ _ _ hnd

/-- For an id that is not mirrored, the buffered spawn map ends the
pass holding the frame and payload of the last message of the batch
that contained the id (last write wins), and stays empty for ids no
message contained. -/
theorem foldl_processMessage_toSpawn_lookup (msgs : List GameStateMessage)
    (st : PassState) (i : EntityId)
    (hndmir : (st.mirror.map MirrorEntity.id).Nodup)
    (hm : ∀ msg ∈ msgs, (alKeys msg.agars).Nodup)
    (hni : i ∉ st.mirror.map MirrorEntity.id) :
    alLookup ((msgs.foldl processMessage st).toSpawn) i =
      msgs.foldl
        (fun acc msg =>
          match alLookup msg.agars i with
          | some u => some (msg.frame, u)
          | none => acc)
        (alLookup st.toSpawn i) := by
  induction msgs generalizing st with
  | nil => rfl
  | cons msg rest ih =>
    rw [List.foldl_cons, List.foldl_cons]
    have hmir1 : (processMessage st msg).mirror.map MirrorEntity.id =
        st.mirror.map MirrorEntity.id := by
      rw [processMessage_mirror, updateMirror_map_id]
    rw [ih (processMessage st msg) (by rw [hmir1]; exact hndmir)
      (fun q hq => hm q (List.mem_cons_of_mem _ hq)) (by rw [hmir1]; exact hni)]
    have hrem : alLookup (updateMirror msg.frame st.mirror msg.agars).2.1 i =
        alLookup msg.agars i := by
      rw [updateMirror_rem_lookup msg.frame st.mirror msg.agars hndmir i, if_neg hni]
    have hremnd : (alKeys (updateMirror msg.frame st.mirror msg.agars).2.1).Nodup := by
      apply List.Nodup.sublist
        (List.Sublist.map Prod.fst (updateMirror_rem_sublist msg.frame st.mirror msg.agars))
      exact hm msg (List.mem_cons_self _ _)
    have hts : alLookup (processMessage st msg).toSpawn i =
        match alLookup msg.agars i with
        | some u => some (msg.frame, u)
        | none => alLookup st.toSpawn i := by
      rw [processMessage_toSpawn]
      rw [foldl_alInsert_lookup _ _ _ _ hremnd]
      rw [hrem]
    rw [hts]

/-- A mirrored id never enters the buffered spawn map. -/
theorem foldl_processMessage_toSpawn_mirror_none (msgs : List GameStateMessage)
    (st : PassState) (i : EntityId)
    (hndmir : (st.mirror.map MirrorEntity.id).Nodup)
    (himir : i ∈ st.mirror.map MirrorEntity.id)
    (h0 : alLookup st.toSpawn i = none) :
    alLookup ((msgs.foldl processMessage st).toSpawn) i = none := by
  induction msgs generalizing st with
  | nil => exact h0
  | cons msg rest ih =>
    rw [List.foldl_cons]
    have hmir1 : (processMessage st msg).mirror.map MirrorEntity.id =
        st.mirror.map MirrorEntity.id := by
      rw [processMessage_mirror, updateMirror_map_id]
    apply ih (processMessage st msg) (by rw [hmir1]; exact hndmir)
      (by rw [hmir1]; exact himir)
    have hrem : alLookup (updateMirror msg.frame st.mirror msg.agars).2.1 i = none := by
      rw [updateMirror_rem_lookup msg.frame st.mirror msg.agars hndmir i, if_pos himir]
    rw [processMessage_toSpawn]
    rw [foldl_alInsert_lookup_none _ _ _ _ (alLookup_eq_none_forall_ne _ _ hrem)]
    exact h0

theorem forall2_frame_le_trans (xs ys zs : List MirrorEntity)
    (h1 : List.Forall₂ (fun e e1 => e.frame ≤ e1.frame) xs ys)
    (h2 : List.Forall₂ (fun e e1 => e.frame ≤ e1.frame) ys zs) :
    List.Forall₂ (fun e e1 => e.frame ≤ e1.frame) xs zs := by
  induction h1 generalizing zs with
  | nil =>
    cases h2
    exact List.Forall₂.nil
  | cons hab t ih =>
    cases h2 with
    | cons h2h h2t => exact List.Forall₂.cons (le_trans hab h2h) (ih _ h2t)

/-- Within one pass, the frame stored on each mirror slot never
decreases. -/
theorem foldl_processMessage_frame_mono (msgs : List GameStateMessage) (st : PassState) :
    List.Forall₂ (fun e e1 => e.frame ≤ e1.frame)
      st.mirror (msgs.foldl processMessage st).mirror := by
  induction msgs generalizing st with
  | nil => exact List.forall₂_same.mpr (fun e _ => le_refl _)
  | cons msg rest ih =>
    rw [List.foldl_cons]
    refine forall2_frame_le_trans _ _ _ ?_ (ih (processMessage st msg))
    rw [processMessage_mirror]
    exact List.Forall₂.imp (fun a b hab => hab.1)
      (updateMirror_pointwise msg.frame st.mirror msg.agars)

/-! ### Claim C2: stale-frame handling per state message -/

/-- C2 counterexample.  A mirrored entity with stored frame 5 that is
absent from a state message with frame 3 (the message is stale for it)
is nonetheless recorded for despawn and is gone when the deferred
commands apply, against the claim that an entity with stored frame at
least the message frame is never removed. -/
theorem c2_stale_absent_removed_counterexample :
    (GameStateMessage.mk 3 [] 0).frame ≤ ent7.frame
    ∧ ent7.id ∈ (updateMirror 3 [ent7] []).2.2
    ∧ finishMirror (runPass [ent7] 0 [GameStateMessage.mk 3 [] 0]) = [] := by decide

/-- C2 amended.  Processing one state message with frame F over a
mirror with distinct ids: a mirrored entity that is present in the
incoming set with stored frame at least F is skipped entirely (it stays
in the mirror unchanged and no despawn is recorded for it) while its
entry is still consumed from the incoming set; an entity that is absent
from the incoming set is recorded for despawn unconditionally,
regardless of how its stored frame compares to F. -/
theorem c2_stale_skip_absent_despawn (F : Nat) (mir : List MirrorEntity)
    (m : List (EntityId × AgarUpdate)) (hnd : (mir.map MirrorEntity.id).Nodup)
    (e : MirrorEntity) (he : e ∈ mir) :
    (∀ u, alLookup m e.id = some u → F ≤ e.frame →
      e ∈ (updateMirror F mir m).1
      ∧ e.id ∉ (updateMirror F mir m).2.2
      ∧ alLookup (updateMirror F mir m).2.1 e.id = none)
    ∧ (alLookup m e.id = none → e.id ∈ (updateMirror F mir m).2.2) := by
  constructor
  · intro u hu hst
    refine ⟨(updateMirror_mem_cases F mir m hnd e he).1 u hu hst, ?_, ?_⟩
    · rw [updateMirror_despawn_mem F mir m hnd e he, hu]
      simp
    · rw [updateMirror_rem_lookup F mir m hnd e.id]
      rw [if_pos (List.mem_map.mpr ⟨e, he, rfl⟩)]
  · intro hu
    rw [updateMirror_despawn_mem F mir m hnd e he]
    exact hu

/-- Witness for C2 amended: the entity of frame 5 is skipped untouched
by a present stale message of frame 3, and is despawned by an absent
one. -/
theorem c2_stale_skip_absent_despawn_witness :
    (ent7 ∈ (updateMirror 3 [ent7] [(7, upd0)]).1
      ∧ ent7.id ∉ (updateMirror 3 [ent7] [(7, upd0)]).2.2
      ∧ alLookup (updateMirror 3 [ent7] [(7, upd0)]).2.1 ent7.id = none)
    ∧ ent7.id ∈ (updateMirror 3 [ent7] []).2.2 :=
  ⟨(c2_stale_skip_absent_despawn 3 [ent7] [(7, upd0)] (by decide) ent7 (by decide)).1
      upd0 (by decide) (by decide),
    (c2_stale_skip_absent_despawn 3 [ent7] [] (by decide) ent7 (by decide)).2 (by decide)⟩

/-! ### Claim C3: at most one spawn per id per pass -/

theorem lastVal_some_persist (msgs : List GameStateMessage) (i : EntityId)
    (v : Nat × AgarUpdate) :
    (msgs.foldl
      (fun acc msg =>
        match alLookup msg.agars i with
        | some u => some (msg.frame, u)
        | none => acc) (some v)).isSome := by
  induction msgs generalizing v with
  | nil => rfl
  | cons msg rest ih =>
    rw [List.foldl_cons]
    cases hl : alLookup msg.agars i with
    | some u => simpa using ih (msg.frame, u)
    | none => simpa using ih v

theorem lastVal_isSome_of_mem (msgs : List GameStateMessage) (i : EntityId)
    (acc : Option (Nat × AgarUpdate))
    (h : ∃ msg ∈ msgs, (alLookup msg.agars i).isSome) :
    (msgs.foldl
      (fun acc msg =>
        match alLookup msg.agars i with
        | some u => some (msg.frame, u)
        | none => acc) acc).isSome := by
  induction msgs generalizing acc with
  | nil =>
    rcases h with ⟨msg, hmem, _⟩
    cases hmem
  | cons msg rest ih =>
    rw [List.foldl_cons]
    rcases h with ⟨q, hq, hqs⟩
    rcases List.mem_cons.mp hq with hq | hq
    · subst hq
      rcases Option.isSome_iff_exists.mp hqs with ⟨u, hu⟩
      rw [hu]
      by_cases hrest : ∃ p ∈ rest, (alLookup p.agars i).isSome
      · exact ih _ hrest
      · exact lastVal_some_persist rest i (q.frame, u)
    · cases hl : alLookup msg.agars i with
      | some u => exact lastVal_some_persist rest i (msg.frame, u)
      | none => exact ih acc ⟨q, hq, hqs⟩

theorem filter_key_length {α : Type} (l : List (EntityId × α)) (i : EntityId)
    (hnd : (alKeys l).Nodup) :
    (l.filter (fun p => p.1 == i)).length =
      if (alLookup l i).isSome then 1 else 0 := by
  induction l with
  | nil => rfl
  | cons p rest ih =>
    simp only [alKeys, List.map_cons, List.nodup_cons] at hnd
    rw [alLookup_cons]
    by_cases hpi : p.1 = i
    · have hb : (p.1 == i) = true := by simp [hpi]
      rw [List.filter_cons, if_pos (by rw [hb])]
      rw [if_pos hpi]
      have hrest : alLookup rest i = none := by
        apply alLookup_eq_none_of_not_mem_keys
        intro hc
        exact hnd.1 (hpi ▸ hc)
      have h0 : (rest.filter (fun p => p.1 == i)).length = 0 := by
        rw [ih hnd.2, hrest]
        rfl
      simp [h0]
    · have hb : (p.1 == i) = false := by simp [hpi]
      rw [List.filter_cons, if_neg (by rw [hb]; simp)]
      rw [if_neg hpi]
      exact ih hnd.2

theorem filter_map_spawned (l : List (EntityId × (Nat × AgarUpdate))) (i : EntityId) :
    (l.map spawnedEntity).filter (fun e => e.id == i) =
      (l.filter (fun p => p.1 == i)).map spawnedEntity := by
  induction l with
  | nil => rfl
  | cons p rest ih =>
    rw [List.map_cons, List.filter_cons, List.filter_cons]
    have hsp : (spawnedEntity p).id = p.1 := rfl
    by_cases hpi : p.1 = i
    · have hb : (p.1 == i) = true := by simp [hpi]
      rw [if_pos (by rw [hsp, hb]), if_pos (by rw [hb])]
      rw [List.map_cons, ih]
    · have hb : (p.1 == i) = false := by simp [hpi]
      rw [if_neg (by rw [hsp, hb]; simp), if_neg (by rw [hb]; simp)]
      exact ih

/-- C3.  For a batch of state messages and an id that is not currently
mirrored: if some message of the batch contains the id, then after the
pass-final commands are applied exactly one mirror entity carries that
id, however many messages of the batch contained it; and the buffered
spawn is last-write-wins, holding the frame and payload of the last
message of the batch that contains the id. -/
theorem c3_single_spawn_per_pass (mirror : List MirrorEntity) (feeds : Nat)
    (msgs : List GameStateMessage) (i : EntityId)
    (hnd : (mirror.map MirrorEntity.id).Nodup)
    (hm : ∀ msg ∈ msgs, (alKeys msg.agars).Nodup)
    (hni : i ∉ mirror.map MirrorEntity.id) :
    ((∃ msg ∈ msgs, (alLookup msg.agars i).isSome) →
      ((finishMirror (runPass mirror feeds msgs)).filter (fun e => e.id == i)).length = 1)
    ∧ ∀ pre msg u, msgs = pre ++ [msg] → alLookup msg.agars i = some u →
        alLookup (runPass mirror feeds msgs).toSpawn i = some (msg.frame, u) := by
  have hlook : alLookup (runPass mirror feeds msgs).toSpawn i =
      msgs.foldl
        (fun acc msg =>
          match alLookup msg.agars i with
          | some u => some (msg.frame, u)
          | none => acc) none := by
    exact foldl_processMessage_toSpawn_lookup msgs (initPass mirror feeds) i hnd hm hni
  constructor
  · intro hex
    unfold finishMirror
    rw [List.filter_append, List.length_append]
    have hsurv : (((runPass mirror feeds msgs).mirror.filter
        (fun e => !((runPass mirror feeds msgs).despawns.contains e.id))).filter
          (fun e => e.id == i)).length = 0 := by
      rw [List.length_eq_zero]
      apply List.filter_eq_nil_iff.mpr
      intro e hee
      have he1 : e ∈ (runPass mirror feeds msgs).mirror := List.mem_of_mem_filter hee
      have hid : e.id ∈ mirror.map MirrorEntity.id := by
        have hmapid : (runPass mirror feeds msgs).mirror.map MirrorEntity.id =
            mirror.map MirrorEntity.id := by
          have h1 := foldl_processMessage_map_id msgs (initPass mirror feeds)
          simpa [initPass, runPass] using h1
        rw [← hmapid]
        exact List.mem_map.mpr ⟨e, he1, rfl⟩
      simp only [beq_eq_false_iff_ne, ne_eq, Bool.not_eq_true, beq_eq_false_iff_ne]
      intro hc
      exact hni (hc ▸ hid)
    rw [hsurv]
    rw [filter_map_spawned, List.length_map]
    have hndts : (alKeys (runPass mirror feeds msgs).toSpawn).Nodup :=
      foldl_processMessage_toSpawn_nodup msgs (initPass mirror feeds) (by simp [initPass, alKeys])
    rw [filter_key_length _ i hndts]
    rw [hlook]
    rw [if_pos (lastVal_isSome_of_mem msgs i none hex)]
  · intro pre msg u hsplit hu
    rw [hlook, hsplit, List.foldl_append]
    rw [List.foldl_cons]
    rw [hu]
    rfl

/-- Witness for C3: a batch of two messages both containing the new id
9 materialises exactly one mirror entity with id 9, holding the second
message's frame and payload. -/
theorem c3_single_spawn_per_pass_witness :
    ((finishMirror (runPass [] 0
        [GameStateMessage.mk 1 [(9, upd0)] 0, GameStateMessage.mk 2 [(9, upd1)] 0])).filter
      (fun e => e.id == 9)).length = 1
    ∧ alLookup (runPass [] 0
        [GameStateMessage.mk 1 [(9, upd0)] 0, GameStateMessage.mk 2 [(9, upd1)] 0]).toSpawn 9 =
      some (2, upd1) :=
  ⟨(c3_single_spawn_per_pass [] 0
      [GameStateMessage.mk 1 [(9, upd0)] 0, GameStateMessage.mk 2 [(9, upd1)] 0] 9
      (by decide) (by decide) (by decide)).1
      ⟨GameStateMessage.mk 1 [(9, upd0)] 0, by decide, by decide⟩,
    (c3_single_spawn_per_pass [] 0
      [GameStateMessage.mk 1 [(9, upd0)] 0, GameStateMessage.mk 2 [(9, upd1)] 0] 9
      (by decide) (by decide) (by decide)).2
      [GameStateMessage.mk 1 [(9, upd0)] 0] (GameStateMessage.mk 2 [(9, upd1)] 0) upd1
      (by decide) (by decide)⟩

/-! ### Claim C7: one FeedRequest per reconciliation pass -/

theorem foldl_processMessage_reqNum_persist (msgs : List GameStateMessage)
    (st : PassState) (c : Nat) (h : st.reqNum = some c) :
    (msgs.foldl processMessage st).reqNum = some c := by
  induction msgs generalizing st with
  | nil => exact h
  | cons msg rest ih =>
    rw [List.foldl_cons]
    apply ih
    rw [processMessage_reqNum, h]
    by_cases hq : st.feeds < msg.feeds
    · rw [if_pos hq]
      rfl
    · rw [if_neg hq]

theorem foldl_processMessage_feeds (msgs : List GameStateMessage) (st : PassState) :
    (msgs.foldl processMessage st).feeds =
      msgs.foldl (fun a m => if a < m.feeds then m.feeds else a) st.feeds := by
  induction msgs generalizing st with
  | nil => rfl
  | cons msg rest ih =>
    rw [List.foldl_cons, List.foldl_cons, ih, processMessage_feeds]

theorem foldl_processMessage_reqNum (msgs : List GameStateMessage) (st : PassState)
    (h : st.reqNum = none) :
    (msgs.foldl processMessage st).reqNum =
      if msgs.any (fun m => decide (st.feeds < m.feeds)) then some st.feeds else none := by
  induction msgs generalizing st with
  | nil =>
    rw [List.any_nil, if_neg (by simp)]
    exact h
  | cons msg rest ih =>
    rw [List.foldl_cons, List.any_cons]
    by_cases hq : st.feeds < msg.feeds
    · have hreq : (processMessage st msg).reqNum = some st.feeds := by
        rw [processMessage_reqNum, if_pos hq, h]
        rfl
      rw [foldl_processMessage_reqNum_persist rest (processMessage st msg) st.feeds hreq]
      have : (decide (st.feeds < msg.feeds) || rest.any fun m => decide (st.feeds < m.feeds)) =
          true := by simp [hq]
      rw [this, if_pos rfl]
    · have hreq : (processMessage st msg).reqNum = none := by
        rw [processMessage_reqNum, if_neg hq]
        exact h
      have hfd : (processMessage st msg).feeds = st.feeds := by
        rw [processMessage_feeds, if_neg hq]
      rw [ih (processMessage st msg) hreq, hfd]
      have : (decide (st.feeds < msg.feeds) || rest.any fun m => decide (st.feeds < m.feeds)) =
          (rest.any fun m => decide (st.feeds < m.feeds)) := by simp [hq]
      rw [this]

/-- C7.  Over one reconciliation pass: a single FeedRequest is armed
exactly when some message of the batch reports a feed counter strictly
above the client's counter at the start of the pass, and its cursor is
that pass-initial counter value (the value held before the first
qualifying message, not the latest); the local counter itself ends the
pass at the running maximum of the initial value and the reported
counters, adopting each qualifying message's value in turn.  If no
message qualifies, no request is armed. -/
theorem c7_single_feed_request (mirror : List MirrorEntity) (feeds : Nat)
    (msgs : List GameStateMessage) :
    (runPass mirror feeds msgs).reqNum =
      (if msgs.any (fun m => decide (feeds < m.feeds)) then some feeds else none)
    ∧ (runPass mirror feeds msgs).feeds =
      msgs.foldl (fun a m => if a < m.feeds then m.feeds else a) feeds := by
  constructor
  · exact foldl_processMessage_reqNum msgs (initPass mirror feeds) rfl
  · exact foldl_processMessage_feeds msgs (initPass mirror feeds)

/-! ### Claim C8: stale updates are no-ops, frames never decrease -/

theorem forall2_with_id (xs ys : List MirrorEntity)
    (h2 : List.Forall₂ (fun e e1 => e.frame ≤ e1.frame) xs ys)
    (hmap : ys.map MirrorEntity.id = xs.map MirrorEntity.id) :
    List.Forall₂ (fun e e1 => e1.id = e.id ∧ e.frame ≤ e1.frame) xs ys := by
  induction h2 with
  | nil => exact List.Forall₂.nil
  | cons hab t ih =>
    simp only [List.map_cons, List.cons.injEq] at hmap
    exact List.Forall₂.cons ⟨hmap.1, hab⟩ (ih hmap.2)

theorem forall2_id_map (xs ys : List MirrorEntity)
    (h : List.Forall₂ (fun e e1 => e1.id = e.id ∧ e.frame ≤ e1.frame) xs ys) :
    ys.map MirrorEntity.id = xs.map MirrorEntity.id := by
  induction h with
  | nil => rfl
  | cons hab t ih =>
    simp only [List.map_cons, List.cons.injEq]
    exact ⟨hab.1, ih⟩

theorem pair_of_forall2 (xs ys : List MirrorEntity)
    (h : List.Forall₂ (fun e e1 => e1.id = e.id ∧ e.frame ≤ e1.frame) xs ys)
    (hnd : (xs.map MirrorEntity.id).Nodup) :
    ∀ e ∈ xs, ∀ e1 ∈ ys, e1.id = e.id → e.frame ≤ e1.frame := by
  induction h with
  | nil => intro e he; cases he
  | cons hab t ih =>
    rename_i a b as bs
    simp only [List.map_cons, List.nodup_cons] at hnd
    intro e he e1 he1 hid
    rcases List.mem_cons.mp he with he | he
    · subst he
      rcases List.mem_cons.mp he1 with he1 | he1
      · subst he1
        exact hab.2
      · exfalso
        have hbs : bs.map MirrorEntity.id = as.map MirrorEntity.id := forall2_id_map _ _ t
        have : e1.id ∈ as.map MirrorEntity.id := by
          rw [← hbs]
          exact List.mem_map.mpr ⟨e1, he1, rfl⟩
        rw [hid] at this
        exact hnd.1 this
    · rcases List.mem_cons.mp he1 with he1 | he1
      · exfalso
        subst he1
        have : e.id ∈ as.map MirrorEntity.id := List.mem_map.mpr ⟨e, he, rfl⟩
        rw [← hid, hab.1] at this
        exact hnd.1 this
      · exact ih hnd.2 e he e1 he1 hid

theorem runPass_map_id (mirror : List MirrorEntity) (feeds : Nat)
    (msgs : List GameStateMessage) :
    (runPass mirror feeds msgs).mirror.map MirrorEntity.id =
      mirror.map MirrorEntity.id := by
  have h1 := foldl_processMessage_map_id msgs (initPass mirror feeds)
  simpa [initPass, runPass] using h1

theorem finishMirror_ids_nodup (mirror : List MirrorEntity) (feeds : Nat)
    (msgs : List GameStateMessage) (hnd : (mirror.map MirrorEntity.id).Nodup) :
    ((finishMirror (runPass mirror feeds msgs)).map MirrorEntity.id).Nodup := by
  unfold finishMirror
  rw [List.map_append]
  have hsurv : (((runPass mirror feeds msgs).mirror.filter
      (fun e => !((runPass mirror feeds msgs).despawns.contains e.id))).map
        MirrorEntity.id).Nodup := by
    apply List.Nodup.sublist (List.Sublist.map MirrorEntity.id (List.filter_sublist _))
    rw [runPass_map_id]
    exact hnd
  have hkeys : (((runPass mirror feeds msgs).toSpawn.map spawnedEntity).map
      MirrorEntity.id) = alKeys (runPass mirror feeds msgs).toSpawn := by
    rw [List.map_map]
    apply List.map_congr_left
    intro p _
    rfl
  have hsp : (((runPass mirror feeds msgs).toSpawn.map spawnedEntity).map
      MirrorEntity.id).Nodup := by
    rw [hkeys]
    exact foldl_processMessage_toSpawn_nodup msgs (initPass mirror feeds)
      (by simp [initPass, alKeys])
  apply List.Nodup.append hsurv hsp
  intro a ha hb
  have hamir : a ∈ mirror.map MirrorEntity.id := by
    rcases List.mem_map.mp ha with ⟨e, hee, hea⟩
    have : e ∈ (runPass mirror feeds msgs).mirror := List.mem_of_mem_filter hee
    rw [← runPass_map_id mirror feeds msgs]
    exact List.mem_map.mpr ⟨e, this, hea⟩
  rw [hkeys] at hb
  have hnone : alLookup (runPass mirror feeds msgs).toSpawn a = none :=
    foldl_processMessage_toSpawn_mirror_none msgs (initPass mirror feeds) a hnd hamir rfl
  have := (alLookup_isSome_iff_mem_keys (runPass mirror feeds msgs).toSpawn a).mpr hb
  rw [hnone] at this
  cases this

/-- Over one pass, an entity that is still mirrored afterwards under
the same id carries a frame at least its old one. -/
theorem runPass_frame_mono (mirror : List MirrorEntity) (feeds : Nat)
    (msgs : List GameStateMessage) (hnd : (mirror.map MirrorEntity.id).Nodup)
    (e : MirrorEntity) (he : e ∈ mirror) (e1 : MirrorEntity)
    (he1 : e1 ∈ finishMirror (runPass mirror feeds msgs)) (hid : e1.id = e.id) :
    e.frame ≤ e1.frame := by
  unfold finishMirror at he1
  rcases List.mem_append.mp he1 with h | h
  · have he1m : e1 ∈ (runPass mirror feeds msgs).mirror := List.mem_of_mem_filter h
    have hmono : List.Forall₂ (fun a b => a.frame ≤ b.frame)
        mirror (runPass mirror feeds msgs).mirror :=
      foldl_processMessage_frame_mono msgs (initPass mirror feeds)
    exact pair_of_forall2 mirror _ (forall2_with_id _ _ hmono (runPass_map_id mirror feeds msgs))
      hnd e he e1 he1m hid
  · exfalso
    rcases List.mem_map.mp h with ⟨p, hp, hpe⟩
    have hid1 : p.1 = e.id := by
      rw [← hid, ← hpe]
      rfl
    have hnone : alLookup (runPass mirror feeds msgs).toSpawn e.id = none :=
      foldl_processMessage_toSpawn_mirror_none msgs (initPass mirror feeds) e.id hnd
        (List.mem_map.mpr ⟨e, he, rfl⟩) rfl
    exact alLookup_eq_none_forall_ne _ _ hnone p hp hid1

/-- Across a sequence of passes in which the id stays mirrored after
every pass, the frame of the entity carrying the id never decreases. -/
theorem runPasses_frame_mono (passes : List (List GameStateMessage)) :
    ∀ (mirror : List MirrorEntity) (feeds : Nat) (e e1 : MirrorEntity),
      (mirror.map MirrorEntity.id).Nodup → e ∈ mirror →
      e1 ∈ (runPasses mirror feeds passes).1 → e1.id = e.id →
      (∀ n, n ≤ passes.length →
        e.id ∈ (runPasses mirror feeds (passes.take n)).1.map MirrorEntity.id) →
      e.frame ≤ e1.frame := by
  induction passes with
  | nil =>
    intro mirror feeds e e1 hnd he he1 hid _
    have h2 : List.Forall₂ (fun a b => a.frame ≤ b.frame) mirror mirror :=
      List.forall₂_same.mpr (fun x _ => le_refl _)
    exact pair_of_forall2 mirror mirror (forall2_with_id _ _ h2 rfl) hnd e he e1 he1 hid
  | cons msgs rest ih =>
    intro mirror feeds e e1 hnd he he1 hid hpers
    have hmid : e.id ∈ (finishMirror (runPass mirror feeds msgs)).map MirrorEntity.id := by
      have h1 := hpers 1 (by simp)
      simpa [runPasses] using h1
    rcases List.mem_map.mp hmid with ⟨e2, he2, he2id⟩
    have h12 : e.frame ≤ e2.frame :=
      runPass_frame_mono mirror feeds msgs hnd e he e2 he2 he2id
    have hndmid := finishMirror_ids_nodup mirror feeds msgs hnd
    have h23 : e2.frame ≤ e1.frame := by
      refine ih (finishMirror (runPass mirror feeds msgs)) (runPass mirror feeds msgs).feeds
        e2 e1 hndmid he2 ?_ (by rw [hid, he2id]) ?_
      · exact he1
      · intro n hn
        have := hpers (n + 1) (by simpa using hn)
        rw [he2id]
        simpa [runPasses] using this
    exact le_trans h12 h23

/-- C8.  An entity present in a state message whose frame F is at most
the entity's stored frame is left entirely unchanged by the update loop
(same agar state, sprite, position and stored frame: the record itself
survives untouched); and across any sequence of reconciliation passes
in which an id stays mirrored, the frame stored for that id never
decreases. -/
theorem c8_stale_noop_frame_monotone :
    (∀ (F : Nat) (mir : List MirrorEntity) (m : List (EntityId × AgarUpdate)),
      (mir.map MirrorEntity.id).Nodup → ∀ e ∈ mir, ∀ u, alLookup m e.id = some u →
      F ≤ e.frame → e ∈ (updateMirror F mir m).1)
    ∧ ∀ (passes : List (List GameStateMessage)) (mirror : List MirrorEntity)
        (feeds : Nat) (e e1 : MirrorEntity),
      (mirror.map MirrorEntity.id).Nodup → e ∈ mirror →
      e1 ∈ (runPasses mirror feeds passes).1 → e1.id = e.id →
      (∀ n, n ≤ passes.length →
        e.id ∈ (runPasses mirror feeds (passes.take n)).1.map MirrorEntity.id) →
      e.frame ≤ e1.frame := by
  constructor
  · intro F mir m hnd e he u hu hst
    exact (updateMirror_mem_cases F mir m hnd e he).1 u hu hst
  · intro passes mirror feeds e e1 hnd he he1 hid hpers
    exact runPasses_frame_mono passes mirror feeds e e1 hnd he he1 hid hpers

/-- Witness for C8: the spec's Scenario 3 entity at frame 5 survives a
frame 3 message with a different position untouched, and a later pass
at frame 6 only raises the frame. -/
theorem c8_stale_noop_frame_monotone_witness :
    ent7 ∈ (updateMirror 3 [ent7] [(7, upd1)]).1
    ∧ ent7.frame ≤ (applyAgarUpdate ent7 upd0 6).frame :=
  ⟨c8_stale_noop_frame_monotone.1 3 [ent7] [(7, upd1)] (by decide) ent7 (by decide)
      upd1 (by decide) (by decide),
    c8_stale_noop_frame_monotone.2 [[GameStateMessage.mk 6 [(7, upd0)] 0]] [ent7] 0
      ent7 (applyAgarUpdate ent7 upd0 6) (by decide) (by decide) (by decide) (by decide)
      (by decide)⟩

end AgarGame
